import Mathlib

/-
Verification of the WA-bot scheduling and correlation engine.

Shallow embedding of the core of the repository:
  app/commands.py   — owner-command interpreter (regex grammar),
  app/scheduler.py  — scheduling engine, group registry, pending slot,
  app/logic.py      — correlation tracker,
  app/workers.py    — job executor (Celery task body),
  app/main.py       — owner-message handling and two-phase completion.

Modelling conventions:
  * Text is `List Char` (`Str`); Python `str.strip`/`str.lower` are embedded
    as `pyStrip`/`pyLower` over ASCII (all inputs of interest are ASCII).
  * UTC instants are integers (seconds); `timedelta(minutes=5)` is `300`,
    `timedelta(seconds=10)` is `10`, a window of `h` hours is `h * 3600`.
    `to_utc` on an aware instant is the identity in this model.
  * Each regex of commands.py is embedded as a character-level matcher with
    the exact anchored-backtracking semantics of `re.match` for that pattern.
  * The database session is an explicit `DBState`; a raised exception is an
    `Except.error` (the enclosing `session_scope` rolls back, so an error
    result carries no state change).
-/

namespace WABot

/-- Character strings, modelled as lists of characters. -/
abbrev Str := List Char

/-- Characters matched by Python's `\s` (whitespace class, ASCII view). -/
def isPySpace (c : Char) : Bool :=
  c == ' ' || c == '\t' || c == '\n' || c == '\r' || c == '\x0b' || c == '\x0c'

/-- ASCII lower-casing of one character, as `re.IGNORECASE` and `str.lower`
use it on ASCII input. -/
def charLowerAscii (c : Char) : Char :=
  if 'A' ≤ c ∧ c ≤ 'Z' then Char.ofNat (c.toNat + 32) else c

/-- Python `str.lower` on ASCII text. -/
def pyLower (s : Str) : Str := s.map charLowerAscii

/-- Python `str.strip`: drop leading and trailing whitespace. -/
def pyStrip (s : Str) : Str :=
  ((s.dropWhile isPySpace).reverse.dropWhile isPySpace).reverse

/-- Characters matched by `\w` (ASCII view): letters, digits, underscore. -/
def isWordChar (c : Char) : Bool :=
  c.isAlpha || c.isDigit || c == '_'

/-- Characters matched by the aliasName class `[\w\-]`. -/
def isAliasChar (c : Char) : Bool := isWordChar c || c == '-'

/-- Characters matched by the group-id class `[\w.@-]`. -/
def isGroupIdChar (c : Char) : Bool :=
  isWordChar c || c == '.' || c == '@' || c == '-'

/-- Match a literal pattern fragment case-insensitively (`re.IGNORECASE`);
returns the rest of the input on success. -/
def eatLiteralCI : Str → Str → Option Str
  | [], cs => some cs
  | _ :: _, [] => none
  | l :: ls, c :: cs =>
      if charLowerAscii c = charLowerAscii l then eatLiteralCI ls cs else none

/-- Match `\s+` when the following pattern atom cannot match whitespace
(so the greedy run never backtracks); returns the rest after the run. -/
def eatWs1 : Str → Option Str
  | [] => none
  | c :: rest => if isPySpace c then some (rest.dropWhile isPySpace) else none

/-- Match a tail of the form `\s+(.+)$` with full backtracking: the greedy
whitespace run gives back its final character to `.+` when nothing else is
left.  Returns the text captured by `.+`. -/
def wsThenRest (cs : Str) : Option Str :=
  let ws := cs.takeWhile isPySpace
  let rest := cs.dropWhile isPySpace
  if ws.isEmpty then none
  else if rest.isEmpty then
    if 2 ≤ ws.length then
      match ws.getLast? with
      | some c => some [c]
      | none => none
    else none
  else some rest

/-- Match the greedy nonempty run `[\w\-]+` of the alias capture; a shorter
candidate always ends in a non-space alias character, so the greedy run
never backtracks usefully against the `\s+` that follows it. -/
def eatAliasRun (cs : Str) : Option (Str × Str) :=
  let run := cs.takeWhile isAliasChar
  if run.isEmpty then none else some (run, cs.dropWhile isAliasChar)

/-- Match one literal character of the pattern. -/
def eatChar (q : Char) : Str → Option Str
  | [] => none
  | c :: rest => if c = q then some rest else none

/-- Match `(?P<aliasName>[\w\-]+)\s+at\s+(?P<when>.+)$` (the common tail of
the two schedule forms). -/
def aliasAtWhenTail (cs : Str) : Option (Str × Str) :=
  (eatAliasRun cs).bind (fun p =>
    (eatWs1 p.2).bind (fun r2 =>
      (eatLiteralCI "at".toList r2).bind (fun r3 =>
        (wsThenRest r3).map (fun whenText => (p.1, whenText)))))

/-- Match `\s+to\s+(?P<aliasName>[\w\-]+)\s+at\s+(?P<when>.+)$` — the part of
`SCHEDULE_RE` after the closing quote of the text segment. -/
def afterQuoteTail (cs : Str) : Option (Str × Str) :=
  (eatWs1 cs).bind (fun r1 =>
    (eatLiteralCI "to".toList r1).bind (fun r2 =>
      (eatWs1 r2).bind (fun r3 => aliasAtWhenTail r3)))

/-- Scan for the closing quote of the lazy group `(?P<text>.+?)`: candidate
closing quotes are tried left to right (lazy semantics, at least one text
character), falling back to treating the quote as text on a failed tail. -/
def scheduleTextScan : Str → Str → Option (Str × Str × Str)
  | _, [] => none
  | acc, c :: rest =>
      if c == '"' && !acc.isEmpty then
        match afterQuoteTail rest with
        | some (aliasName, whenText) => some (acc.reverse, aliasName, whenText)
        | none => scheduleTextScan (c :: acc) rest
  else scheduleTextScan (c :: acc) rest

/-- `SCHEDULE_RE`:
`^schedule\s+"(?P<text>.+?)"\s+to\s+(?P<aliasName>[\w\-]+)\s+at\s+(?P<when>.+)$`
(IGNORECASE). -/
def matchSchedule (cs : Str) : Option (Str × Str × Str) :=
  (eatLiteralCI "schedule".toList cs).bind (fun r1 =>
    (eatWs1 r1).bind (fun r2 =>
      (eatChar '"' r2).bind (fun r3 => scheduleTextScan [] r3)))

/-- Modelled from the spec: the `ScheduleConfig` parse rule is missing from
src/app/commands.py although app/main.py imports `ScheduleConfigCommand`
from it and handles the command.  Per §4.1/§6 the form is
`schedule to <aliasName> at <when>` — the `Schedule` family without a quoted
text segment, case-insensitive, aliasName of word-and-hyphen characters, `when`
an opaque trailing phrase: `^schedule\s+to\s+(?P<aliasName>[\w\-]+)\s+at\s+(?P<when>.+)$`. -/
def matchScheduleConfig (cs : Str) : Option (Str × Str) :=
  (eatLiteralCI "schedule".toList cs).bind (fun r1 =>
    (eatWs1 r1).bind (fun r2 =>
      (eatLiteralCI "to".toList r2).bind (fun r3 =>
        (eatWs1 r3).bind (fun r4 => aliasAtWhenTail r4))))

/-- `REGISTER_RE`:
`^register\s+group\s+(?P<aliasName>[\w\-]+)\s+(?P<group_id>[\w.@-]+)(?:\s+(?P<group_name>.+))?$`
(IGNORECASE). -/
def matchRegister (cs : Str) : Option (Str × Str × Option Str) :=
  match eatLiteralCI "register".toList cs with
  | none => none
  | some r1 =>
      match eatWs1 r1 with
      | none => none
      | some r2 =>
          match eatLiteralCI "group".toList r2 with
          | none => none
          | some r3 =>
              match eatWs1 r3 with
              | none => none
              | some r4 =>
                  let aliasName := r4.takeWhile isAliasChar
                  let rest5 := r4.dropWhile isAliasChar
                  if aliasName.isEmpty then none
                  else
                    match eatWs1 rest5 with
                    | none => none
                    | some r6 =>
                        let gid := r6.takeWhile isGroupIdChar
                        let rest7 := r6.dropWhile isGroupIdChar
                        if gid.isEmpty then none
                        else if rest7.isEmpty then some (aliasName, gid, none)
                        else
                          match wsThenRest rest7 with
                          | none => none
                          | some nm => some (aliasName, gid, some nm)

/-- `UNREGISTER_RE`: `^unregister\s+group\s+(?P<aliasName>[\w\-]+)$` (IGNORECASE). -/
def matchUnregister (cs : Str) : Option Str :=
  match eatLiteralCI "unregister".toList cs with
  | none => none
  | some r1 =>
      match eatWs1 r1 with
      | none => none
      | some r2 =>
          match eatLiteralCI "group".toList r2 with
          | none => none
          | some r3 =>
              match eatWs1 r3 with
              | none => none
              | some r4 =>
                  let aliasName := r4.takeWhile isAliasChar
                  let rest := r4.dropWhile isAliasChar
                  if aliasName.isEmpty then none
                  else if rest.isEmpty then some aliasName
                  else none

/-- Digit-string to number, as Python `int` on the `\d+` capture. -/
def digitsToNat (ds : Str) : Nat :=
  ds.foldl (fun acc c => acc * 10 + (c.toNat - '0'.toNat)) 0

/-- `CANCEL_RE`: `^cancel\s+(?P<job_id>\d+)$` (IGNORECASE). -/
def matchCancel (cs : Str) : Option Nat :=
  match eatLiteralCI "cancel".toList cs with
  | none => none
  | some r1 =>
      match eatWs1 r1 with
      | none => none
      | some r2 =>
          let ds := r2.takeWhile Char.isDigit
          let rest := r2.dropWhile Char.isDigit
          if ds.isEmpty then none
          else if rest.isEmpty then some (digitsToNat ds)
          else none

/-- `LIST_RE`: `^list$` (IGNORECASE). -/
def matchListCmd (cs : Str) : Bool :=
  match eatLiteralCI "list".toList cs with
  | some [] => true
  | _ => false

/-- `GROUPS_RE`: `^groups$` (IGNORECASE). -/
def matchGroupsCmd (cs : Str) : Bool :=
  match eatLiteralCI "groups".toList cs with
  | some [] => true
  | _ => false

/-- The tagged union of owner commands (`OwnerCommand` in commands.py; the
`scheduleConfig` variant is the `ScheduleConfigCommand` that app/main.py
imports — see `matchScheduleConfig`). -/
inductive OwnerCommand where
  | schedule (text group_alias whenText : Str)
  | scheduleConfig (group_alias whenText : Str)
  | listJobs
  | cancel (job_id : Nat)
  | registerGroup (aliasName group_id : Str) (group_name : Option Str)
  | unregisterGroup (aliasName : Str)
  | groups
  deriving DecidableEq, Repr

/-- `parse_owner_command` (commands.py lines 72-105): strip, then try the
patterns first-match-wins; unmatched input raises `CommandParseError`.
The `ScheduleConfig` attempt is placed directly after `Schedule` (the same
command family without the quoted segment, spec §4.1). -/
def parse_owner_command (message : Str) : Except Unit OwnerCommand :=
  let normalized := pyStrip message
  match matchSchedule normalized with
  | some (text, aliasName, whenText) => .ok (.schedule text aliasName whenText)
  | none =>
  match matchScheduleConfig normalized with
  | some (aliasName, whenText) => .ok (.scheduleConfig aliasName whenText)
  | none =>
  match matchRegister normalized with
  | some (aliasName, gid, nameOpt) =>
      let nm : Option Str :=
        match nameOpt with
        | some n => let stripped := pyStrip n
                    if stripped.isEmpty then none else some stripped
        | none => none
      .ok (.registerGroup aliasName gid nm)
  | none =>
  match matchUnregister normalized with
  | some aliasName => .ok (.unregisterGroup aliasName)
  | none =>
  match matchCancel normalized with
  | some jid => .ok (.cancel jid)
  | none =>
  if matchListCmd normalized then .ok .listJobs
  else if matchGroupsCmd normalized then .ok .groups
  else .error ()

/-! ## Data model (app/models.py) -/

/-- `JobStatus` (models.py lines 16-20). -/
inductive JobStatus where
  | scheduled
  | sent
  | cancelled
  | failed
  deriving DecidableEq, Repr

/-- `Job` row (models.py lines 23-44).  The `correlation_key` is modelled by
the hash payload string `f"{group_id}|{text}|{run_at.isoformat()}"` itself:
`hashlib.sha256(payload).hexdigest()` is a deterministic function of the
payload, and determinism is the only property of the digest the engine
relies on, so the digest step is dropped.  `run_at.isoformat()` is modelled
by the decimal rendering of the instant. -/
structure Job where
  id : Nat
  group_id : Str
  group_alias : Str
  text : Str
  run_at : Int
  created_by : Str
  created_at : Int
  celery_task_id : Option Str
  status : JobStatus
  last_error : Option Str
  correlation_key : Option Str
  deriving DecidableEq, Repr

/-- `Group` row (models.py lines 47-57); the surrogate primary key, unused
by the engine, is omitted. -/
structure Group where
  aliasName : Str
  group_id : Str
  group_name : Option Str
  created_at : Int
  deriving DecidableEq, Repr

/-- Modelled from the spec: the `PendingSchedule` model class is missing
from src/app/models.py although app/scheduler.py imports and uses it.
Spec §3: at most one row per owner id; fields owner id (unique), group
alias, run_at, created_at. -/
structure PendingSchedule where
  owner_id : Str
  group_alias : Str
  run_at : Int
  created_at : Int
  deriving DecidableEq, Repr

/-- `MessageCorrelation` row (models.py lines 60-74); the surrogate primary
key `id` orders creation like the autoincrement column does. -/
structure MessageCorrelation where
  id : Nat
  bot_message_id : Str
  group_id : Str
  job_id : Nat
  original_message_id : Option Str
  window_expires_at : Int
  created_at : Int
  deriving DecidableEq, Repr

/-- The persistent store: one transactional session's view of the tables,
plus the autoincrement counters. -/
structure DBState where
  groups : List Group
  jobs : List Job
  pending : List PendingSchedule
  correlations : List MessageCorrelation
  nextJobId : Nat
  nextCorrelationId : Nat
  deriving DecidableEq, Repr

/-- Exceptions raised by the scheduling engine: the two `ValueError`s of
`schedule_job` plus the database's `IntegrityError` for a unique-constraint
violation (never handled inside scheduler.py). -/
inductive SchedulerError where
  | unknownGroupAlias (aliasName : Str)
  | pastSchedule
  | storageConflict
  deriving DecidableEq, Repr

/-! ## Scheduling engine (app/scheduler.py) -/

/-- `_generate_correlation_key` (scheduler.py lines 21-23), with the sha256
digest modelled by its payload (see `Job`). -/
def _generate_correlation_key (group_id text : Str) (run_at : Int) : Str :=
  group_id ++ '|' :: text ++ '|' :: (toString run_at).toList

/-- `select(Group).where(Group.alias == a)` + `scalar_one_or_none` under the
unique constraint on `alias`. -/
def findGroupByAlias (groups : List Group) (aliasNorm : Str) : Option Group :=
  groups.find? (fun g => g.aliasName == aliasNorm)

/-- `select(Job).where(Job.correlation_key == k)` + `scalar_one_or_none`
under the unique constraint on `correlation_key`. -/
def findJobByKey (jobs : List Job) (key : Str) : Option Job :=
  jobs.find? (fun j => j.correlation_key == some key)

/-- `session.get(Job, job_id)`. -/
def findJobById (jobs : List Job) (job_id : Nat) : Option Job :=
  jobs.find? (fun j => j.id == job_id)

/-- The task reference returned by `celery.send_task(...)` — the external
dispatcher is modelled as returning a reference derived from the job id. -/
def taskRef (job_id : Nat) : Str := ("task-" ++ toString job_id).toList

/-- The `Job(...)` constructor call of `schedule_job` (scheduler.py lines
63-70) together with the dispatcher submission (lines 74-80): a fresh
Scheduled row carrying the resolved destination and the task reference. -/
def newJob (s : DBState) (now : Int) (group : Group) (text : Str)
    (run_at_utc : Int) (created_by : Str) (key : Str) : Job :=
  { id := s.nextJobId
    group_id := group.group_id
    group_alias := group.aliasName
    text := text
    run_at := run_at_utc
    created_by := created_by
    created_at := now
    celery_task_id := some (taskRef s.nextJobId)
    status := .scheduled
    last_error := none
    correlation_key := some key }

/-- `session.add(job); session.flush()` for a job row. -/
def insertJob (s : DBState) (j : Job) : DBState :=
  { s with jobs := s.jobs ++ [j], nextJobId := s.nextJobId + 1 }

/-- The persist-and-submit tail of `schedule_job` (scheduler.py lines
53-82): compute the correlation key, return an existing Job with that key
unchanged, otherwise insert a new Scheduled job and store the dispatcher's
task reference. -/
def scheduleAt (s : DBState) (now : Int) (group : Group) (text : Str)
    (run_at_utc : Int) (created_by : Str) (correlation_key : Option Str) :
    Except SchedulerError (Job × DBState) :=
  let key := correlation_key.getD (_generate_correlation_key group.group_id text run_at_utc)
  match findJobByKey s.jobs key with
  | some existing_job => .ok (existing_job, s)
  | none =>
      let job := newJob s now group text run_at_utc created_by key
      .ok (job, insertJob s job)

/-- `schedule_job` (scheduler.py lines 26-82): resolve the alias
(lower-cased), normalize to UTC, grace-adjust a just-passed `run_at` to
`now + 10` seconds when it is at most 5 minutes past, otherwise raise
"Scheduled time is in the past.", then persist via `scheduleAt`. -/
def schedule_job (s : DBState) (now : Int) (group_alias text : Str)
    (run_at : Int) (created_by : Str) (correlation_key : Option Str) :
    Except SchedulerError (Job × DBState) :=
  let aliasNorm := pyLower group_alias
  match findGroupByAlias s.groups aliasNorm with
  | none => .error (.unknownGroupAlias group_alias)
  | some group =>
      let run_at_utc := run_at
      let current_utc := now
      if run_at_utc ≤ current_utc then
        if current_utc - run_at_utc ≤ 300 then
          scheduleAt s now group text (current_utc + 10) created_by correlation_key
        else .error .pastSchedule
      else scheduleAt s now group text run_at_utc created_by correlation_key

/-- `get_group_by_alias` (scheduler.py lines 85-88). -/
def get_group_by_alias (s : DBState) (aliasName : Str) : Option Group :=
  findGroupByAlias s.groups (pyLower aliasName)

/-- `cancel_job` (scheduler.py lines 91-103): missing id → false; already
Cancelled or Sent → true with no mutation; otherwise set Cancelled, clear
`last_error` and (advisorily) revoke the dispatcher task. -/
def cancel_job (s : DBState) (job_id : Nat) : Bool × DBState :=
  match findJobById s.jobs job_id with
  | none => (false, s)
  | some job =>
      if job.status = .cancelled ∨ job.status = .sent then (true, s)
      else
        (true,
         { s with
             jobs := s.jobs.map (fun j =>
               if j.id = job_id then { j with status := .cancelled, last_error := none } else j) })

/-- `get_pending_schedule` (scheduler.py lines 115-117). -/
def get_pending_schedule (s : DBState) (owner_id : Str) : Option PendingSchedule :=
  s.pending.find? (fun p => p.owner_id == owner_id)

/-- `save_pending_schedule` (scheduler.py lines 120-143): single slot per
owner, overwritten in place (alias lower-cased, `created_at` refreshed). -/
def save_pending_schedule (s : DBState) (now : Int) (owner_id group_alias : Str)
    (run_at : Int) : PendingSchedule × DBState :=
  let aliasNorm := pyLower group_alias
  let run_at_utc := run_at
  match get_pending_schedule s owner_id with
  | some _ =>
      let upd : PendingSchedule → PendingSchedule := fun p =>
        if p.owner_id == owner_id then
          { p with group_alias := aliasNorm, run_at := run_at_utc, created_at := now }
        else p
      ({ owner_id := owner_id, group_alias := aliasNorm, run_at := run_at_utc, created_at := now },
       { s with pending := s.pending.map upd })
  | none =>
      let p : PendingSchedule :=
        { owner_id := owner_id, group_alias := aliasNorm, run_at := run_at_utc, created_at := now }
      (p, { s with pending := s.pending ++ [p] })

/-- `clear_pending_schedule` (scheduler.py lines 146-151). -/
def clear_pending_schedule (s : DBState) (owner_id : Str) : Bool × DBState :=
  match get_pending_schedule s owner_id with
  | none => (false, s)
  | some _ => (true, { s with pending := s.pending.filter (fun p => p.owner_id != owner_id) })

/-- `register_group` (scheduler.py lines 154-170): last-write-wins upsert
keyed on the lower-cased alias. -/
def register_group (s : DBState) (now : Int) (aliasName group_id : Str)
    (group_name : Option Str) : Group × DBState :=
  let aliasNorm := pyLower aliasName
  match findGroupByAlias s.groups aliasNorm with
  | some g =>
      let upd : Group → Group := fun x =>
        if x.aliasName == aliasNorm then { x with group_id := group_id, group_name := group_name }
        else x
      ({ g with group_id := group_id, group_name := group_name },
       { s with groups := s.groups.map upd })
  | none =>
      let g : Group :=
        { aliasName := aliasNorm, group_id := group_id, group_name := group_name, created_at := now }
      (g, { s with groups := s.groups ++ [g] })

/-- `unregister_group` (scheduler.py lines 173-181). -/
def unregister_group (s : DBState) (aliasName : Str) : Bool × DBState :=
  let aliasNorm := pyLower aliasName
  match findGroupByAlias s.groups aliasNorm with
  | none => (false, s)
  | some _ => (true, { s with groups := s.groups.filter (fun g => g.aliasName != aliasNorm) })

/-- Boolean ordering of instants for the `run_at` ascending sort. -/
def runAtLe (a b : Job) : Bool := decide (a.run_at ≤ b.run_at)

/-- `list_jobs` (scheduler.py lines 106-112): all Scheduled jobs ordered by
`run_at` ascending. -/
def list_jobs (s : DBState) : List Job :=
  (s.jobs.filter (fun j => j.status == JobStatus.scheduled)).mergeSort runAtLe

/-- Lexicographic character-list ordering for the alias ascending sort. -/
def strLe : Str → Str → Bool
  | [], _ => true
  | _ :: _, [] => false
  | a :: as_, b :: bs => if a = b then strLe as_ bs else decide (a < b)

/-- `list_groups` (scheduler.py lines 184-186): groups ordered by alias. -/
def list_groups (s : DBState) : List Group :=
  s.groups.mergeSort (fun a b => strLe a.aliasName b.aliasName)

/-- `mark_job_sent` (scheduler.py lines 189-193): unconditionally set Sent
and clear `last_error` when the job exists. -/
def mark_job_sent (s : DBState) (job_id : Nat) : DBState :=
  { s with
      jobs := s.jobs.map (fun j =>
        if j.id = job_id then { j with status := .sent, last_error := none } else j) }

/-- `mark_job_failed` (scheduler.py lines 196-200): unconditionally set
Failed and record the error when the job exists. -/
def mark_job_failed (s : DBState) (job_id : Nat) (error : Str) : DBState :=
  { s with
      jobs := s.jobs.map (fun j =>
        if j.id = job_id then { j with status := .failed, last_error := some error } else j) }

/-! ## Correlation tracker (app/logic.py) -/

/-- `record_correlation` (logic.py lines 14-33): insert a correlation whose
window expires `message_window_hours` after now. -/
def record_correlation (s : DBState) (now : Int) (window_hours : Int)
    (job_id : Nat) (group_id bot_message_id : Str)
    (original_message_id : Option Str) : MessageCorrelation × DBState :=
  let expires_at := now + window_hours * 3600
  let corr : MessageCorrelation :=
    { id := s.nextCorrelationId
      bot_message_id := bot_message_id
      group_id := group_id
      job_id := job_id
      original_message_id := original_message_id
      window_expires_at := expires_at
      created_at := now }
  (corr, { s with correlations := s.correlations ++ [corr],
                  nextCorrelationId := s.nextCorrelationId + 1 })

/-- `_window_in_future` (logic.py lines 72-75); timezone normalization is
the identity on integer instants. -/
def window_in_future (expires_at now : Int) : Bool := decide (now < expires_at)

/-- The context-id lookup of `find_correlation_for_context` (logic.py lines
41-48): the correlation whose `bot_message_id` equals the context id, kept
only while its window is in the future. -/
def correlationByContext (s : DBState) (now : Int)
    (context_message_id : Option Str) : Option MessageCorrelation :=
  match context_message_id with
  | none => none
  | some cid =>
      match s.correlations.find? (fun c => c.bot_message_id == cid) with
      | none => none
      | some c => if window_in_future c.window_expires_at now then some c else none

/-- `order_by(created_at.desc())` + `.first()`: the latest-created element
of the candidate list (ties broken by list position, as the SQL order on
equal keys is unspecified). -/
def mostRecent : List MessageCorrelation → Option MessageCorrelation
  | [] => none
  | c :: rest =>
      match mostRecent rest with
      | none => some c
      | some b => if b.created_at > c.created_at then some b else some c

/-- `find_correlation_for_context` (logic.py lines 36-61): prefer the
unexpired correlation matching the reply context id; otherwise fall back to
the most-recently-created unexpired correlation of the destination. -/
def find_correlation_for_context (s : DBState) (now : Int) (group_id : Str)
    (context_message_id : Option Str) : Option MessageCorrelation :=
  match correlationByContext s now context_message_id with
  | some c => some c
  | none =>
      let candidates := s.correlations.filter
        (fun c => c.group_id == group_id && decide (now < c.window_expires_at))
      match mostRecent candidates with
      | none => none
      | some c => if window_in_future c.window_expires_at now then some c else none

/-! ## Job executor (app/workers.py) -/

/-- The provider's reply to the one outbound send the executor may perform:
an HTTP status error (retryable), or a 2xx payload carrying the list of
message ids under `"messages"`. -/
inductive SendResponse where
  | httpError
  | ok (messageIds : List Str)
  deriving DecidableEq, Repr

/-- What one delivery of the fire event did, for stating properties. -/
inductive ExecOutcome where
  | jobMissing
  | noopCancelled
  | noopAlreadySent
  | alreadyCorrelated
  | retried
  | failedNoMessageId
  | sent
  deriving DecidableEq, Repr

/-- The error recorded when the provider returns success without ids. -/
def noMessageIdError : Str := "No message id returned from WhatsApp".toList

/-- `send_scheduled_message` (workers.py lines 70-133), the Celery task
body, as a function of the provider's `response` to the send.  The returned
list holds the `(destination, text)` pairs actually sent on the wire.
On `httpError` the task raises `self.retry`, so the transaction rolls back
and the state is unchanged; on a success without message ids the net effect
of the in-task `mark_job_failed` + `RuntimeError` + `DatabaseTask.on_failure`
is the job marked Failed with that error. -/
def send_scheduled_message (s : DBState) (job_id : Nat) (response : SendResponse)
    (now : Int) (window_hours : Int) : DBState × List (Str × Str) × ExecOutcome :=
  match findJobById s.jobs job_id with
  | none => (s, [], .jobMissing)
  | some job =>
      if job.status = .cancelled then (s, [], .noopCancelled)
      else if job.status = .sent then (s, [], .noopAlreadySent)
      else
        match s.correlations.find? (fun c => c.job_id == job.id) with
        | some _ => (mark_job_sent s job.id, [], .alreadyCorrelated)
        | none =>
            let sends := [(job.group_id, job.text)]
            match response with
            | .httpError => (s, sends, .retried)
            | .ok ids =>
                match ids with
                | [] => (mark_job_failed s job.id noMessageIdError, sends, .failedNoMessageId)
                | mid :: _ =>
                    let (_, s1) :=
                      record_correlation s now window_hours job.id job.group_id mid none
                    (mark_job_sent s1 job.id, sends, .sent)

/-! ## Owner-message handling (app/main.py) -/

/-- The incoming webhook message fields the owner path reads
(`IncomingMessage`, main.py lines 57-71; the group-routing fields are not
used by `process_owner_message`). -/
structure IncomingMessage where
  sender_wa_id : Str
  text : Option Str
  button_payload : Option Str
  deriving DecidableEq, Repr

/-- One `client.send_text_message(to=owner, ...)` call, tagged by call site
(the concrete wording of each reply is immaterial to the claims). -/
inductive OwnerReply where
  | interactiveUnsupported
  | unsupportedTypePending
  | unsupportedType
  | parseFailedHelp
  | emptyContent
  | scheduleFailed (e : SchedulerError)
  | scheduledPendingJob (job_id : Nat) (adjusted : Bool)
  | couldNotParseTime
  | scheduledJob (job_id : Nat)
  | unknownAliasConfig (aliasName : Str)
  | pastScheduleConfig
  | configStored (aliasName : Str) (run_at : Int)
  | noJobs
  | jobsList (jobs : List Job)
  | cancelledJob (job_id : Nat)
  | jobNotFound (job_id : Nat)
  | noGroups
  | groupsList (gs : List Group)
  | registered (aliasName group_id : Str)
  | unregistered (aliasName : Str)
  | groupNotFound (aliasName : Str)
  deriving DecidableEq, Repr

/-- `_complete_pending_schedule` (main.py lines 271-333): blank content is
rejected with the Armed slot left intact; otherwise the armed `run_at` is
grace-adjusted against the arming time and the job is scheduled, the slot
cleared on success and on scheduling failure alike. -/
def _complete_pending_schedule (s : DBState) (now : Int) (owner_wa_id : Str)
    (pending_schedule : PendingSchedule) (content_text : Str) :
    DBState × List OwnerReply :=
  if (pyStrip content_text).isEmpty then (s, [.emptyContent])
  else
    let run_at := pending_schedule.run_at
    let created_at := pending_schedule.created_at
    let adjusted := run_at ≤ now ∧ now - created_at ≤ 300
    let run_at' := if run_at ≤ now ∧ now - created_at ≤ 300 then now + 10 else run_at
    match schedule_job s now pending_schedule.group_alias content_text run_at' owner_wa_id none with
    | .error e =>
        let (_, s') := clear_pending_schedule s owner_wa_id
        (s', [.scheduleFailed e])
    | .ok (job, s1) =>
        let (_, s2) := clear_pending_schedule s1 owner_wa_id
        (s2, [.scheduledPendingJob job.id (decide adjusted)])

/-- `handle_owner_command` (main.py lines 336-488).  `parseWhen` stands for
`parse_natural_datetime` (the external dateparser collaborator). -/
def handle_owner_command (s : DBState) (now : Int) (owner_wa_id : Str)
    (parseWhen : Str → Option Int) (command : OwnerCommand) :
    DBState × List OwnerReply :=
  match command with
  | .schedule text group_alias whenText =>
      match parseWhen whenText with
      | none => (s, [.couldNotParseTime])
      | some run_at_utc =>
          match schedule_job s now group_alias text run_at_utc owner_wa_id none with
          | .error e => (s, [.scheduleFailed e])
          | .ok (job, s1) =>
              let (_, s2) := clear_pending_schedule s1 owner_wa_id
              (s2, [.scheduledJob job.id])
  | .scheduleConfig group_alias whenText =>
      match parseWhen whenText with
      | none => (s, [.couldNotParseTime])
      | some run_at_utc =>
          match get_group_by_alias s group_alias with
          | none => (s, [.unknownAliasConfig group_alias])
          | some group =>
              if run_at_utc ≤ now then (s, [.pastScheduleConfig])
              else
                let (_, s1) :=
                  save_pending_schedule s now owner_wa_id group.aliasName run_at_utc
                (s1, [.configStored group.aliasName run_at_utc])
  | .listJobs =>
      let jobs := list_jobs s
      if jobs.isEmpty then (s, [.noJobs]) else (s, [.jobsList jobs])
  | .cancel job_id =>
      let (ok, s1) := cancel_job s job_id
      if ok then (s1, [.cancelledJob job_id]) else (s1, [.jobNotFound job_id])
  | .groups =>
      let gs := list_groups s
      if gs.isEmpty then (s, [.noGroups]) else (s, [.groupsList gs])
  | .registerGroup aliasName group_id group_name =>
      let (g, s1) := register_group s now aliasName group_id group_name
      (s1, [.registered g.aliasName g.group_id])
  | .unregisterGroup aliasName =>
      let (ok, s1) := unregister_group s aliasName
      if ok then (s1, [.unregistered aliasName]) else (s1, [.groupNotFound aliasName])

/-- `process_owner_message` (main.py lines 219-268): a direct message from
anyone but the configured owner is dropped before any lookup, reply or
parse; owner messages are routed to the command handler, with unparsable
text completing an Armed pending schedule when one exists. -/
def process_owner_message (s : DBState) (now : Int) (owner_wa_id : Str)
    (parseWhen : Str → Option Int) (message : IncomingMessage) :
    DBState × List OwnerReply :=
  if message.sender_wa_id ≠ owner_wa_id then (s, [])
  else
    let pending_schedule := get_pending_schedule s owner_wa_id
    if message.button_payload.isSome then (s, [.interactiveUnsupported])
    else
      match message.text with
      | none =>
          (s, [if pending_schedule.isSome then .unsupportedTypePending else .unsupportedType])
      | some text =>
          if text.isEmpty then
            (s, [if pending_schedule.isSome then .unsupportedTypePending else .unsupportedType])
          else
            match parse_owner_command text with
            | .error _ =>
                match pending_schedule with
                | some p => _complete_pending_schedule s now owner_wa_id p text
                | none => (s, [.parseFailedHelp])
            | .ok command => handle_owner_command s now owner_wa_id parseWhen command

/-! ## The correlation-key race (spec §5) -/

/-- `schedule_job` under the §5 race: the same code path as `schedule_job`
(scheduler.py lines 26-82), with `concurrent` the jobs committed by a rival
request between this transaction's existence check (line 57) and its
`session.flush()` (line 72).  The flush is where the database enforces the
unique constraint on `correlation_key`: a duplicate raises an
`IntegrityError`, and `schedule_job` contains no handler for it, so the
conflict propagates to the caller. -/
def scheduleAtDuringRace (s : DBState) (concurrent : List Job) (now : Int)
    (group : Group) (text : Str) (run_at_utc : Int) (created_by : Str)
    (correlation_key : Option Str) : Except SchedulerError (Job × DBState) :=
  let key := correlation_key.getD (_generate_correlation_key group.group_id text run_at_utc)
  match findJobByKey s.jobs key with
  | some existing_job => .ok (existing_job, s)
  | none =>
      match findJobByKey concurrent key with
      | some _ => .error .storageConflict
      | none =>
          let job := newJob s now group text run_at_utc created_by key
          .ok (job, { s with jobs := s.jobs ++ concurrent ++ [job],
                             nextJobId := s.nextJobId + 1 })

/-- `schedule_job` with the race interleaving of `scheduleAtDuringRace`. -/
def schedule_job_duringRace (s : DBState) (concurrent : List Job) (now : Int)
    (group_alias text : Str) (run_at : Int) (created_by : Str)
    (correlation_key : Option Str) : Except SchedulerError (Job × DBState) :=
  let aliasNorm := pyLower group_alias
  match findGroupByAlias s.groups aliasNorm with
  | none => .error (.unknownGroupAlias group_alias)
  | some group =>
      let run_at_utc := run_at
      let current_utc := now
      if run_at_utc ≤ current_utc then
        if current_utc - run_at_utc ≤ 300 then
          scheduleAtDuringRace s concurrent now group text (current_utc + 10) created_by correlation_key
        else .error .pastSchedule
      else scheduleAtDuringRace s concurrent now group text run_at_utc created_by correlation_key

/-! ## Sample data for concrete instantiations -/

/-- A registered group, as in the repository's tests. -/
def sampleGroup : Group :=
  { aliasName := "team".toList, group_id := "12345@g.us".toList,
    group_name := none, created_at := 0 }

/-- A store holding only `sampleGroup`. -/
def sampleState : DBState :=
  { groups := [sampleGroup], jobs := [], pending := [], correlations := [],
    nextJobId := 1, nextCorrelationId := 1 }

/-- A job that has reached the terminal Failed status. -/
def failedJob : Job :=
  { id := 1, group_id := "12345@g.us".toList, group_alias := "team".toList,
    text := "hi".toList, run_at := 50, created_by := "owner".toList,
    created_at := 0, celery_task_id := some (taskRef 1), status := .failed,
    last_error := some "boom".toList, correlation_key := none }

/-- A store holding only `failedJob`. -/
def failedState : DBState :=
  { groups := [], jobs := [failedJob], pending := [], correlations := [],
    nextJobId := 2, nextCorrelationId := 1 }

/-- A still-Scheduled job awaiting its fire event. -/
def scheduledJob : Job :=
  { id := 3, group_id := "12345@g.us".toList, group_alias := "team".toList,
    text := "hello".toList, run_at := 100, created_by := "owner".toList,
    created_at := 0, celery_task_id := some (taskRef 3), status := .scheduled,
    last_error := none,
    correlation_key := some (_generate_correlation_key "12345@g.us".toList "hello".toList 100) }

/-- A store holding `sampleGroup` and the pending `scheduledJob`. -/
def scheduledState : DBState :=
  { groups := [sampleGroup], jobs := [scheduledJob], pending := [],
    correlations := [], nextJobId := 4, nextCorrelationId := 1 }

/-- An earlier-created correlation for the sample destination. -/
def corrA : MessageCorrelation :=
  { id := 1, bot_message_id := "m1".toList, group_id := "12345@g.us".toList,
    job_id := 3, original_message_id := none, window_expires_at := 1000,
    created_at := 10 }

/-- A later-created correlation for the sample destination. -/
def corrB : MessageCorrelation :=
  { id := 2, bot_message_id := "m2".toList, group_id := "12345@g.us".toList,
    job_id := 4, original_message_id := none, window_expires_at := 1000,
    created_at := 20 }

/-- A store holding the two sample correlations. -/
def corrState : DBState :=
  { groups := [sampleGroup], jobs := [], pending := [],
    correlations := [corrA, corrB], nextJobId := 1, nextCorrelationId := 3 }

/-- The correlation key of the schedule request used in the race scenario. -/
def rivalKey : Str := _generate_correlation_key "12345@g.us".toList "hi".toList 2000

/-- The job committed by the rival request in the race scenario. -/
def rivalJob : Job :=
  { id := 7, group_id := "12345@g.us".toList, group_alias := "team".toList,
    text := "hi".toList, run_at := 2000, created_by := "owner".toList,
    created_at := 999, celery_task_id := some (taskRef 7), status := .scheduled,
    last_error := none, correlation_key := some rivalKey }

/-! ## Helper lemmas -/

theorem isPySpace_char_cases {c : Char} (h : isPySpace c = true) :
    c = ' ' ∨ c = '\t' ∨ c = '\n' ∨ c = '\r' ∨ c = '\x0b' ∨ c = '\x0c' := by
  have h' := h
  simp [isPySpace] at h'
  tauto

theorem not_isPySpace_of_lower_letter {c : Char}
    (h1 : 'a' ≤ charLowerAscii c) (h2 : charLowerAscii c ≤ 'z') :
    isPySpace c = false := by
  cases hB : isPySpace c
  · rfl
  · exfalso
    rcases isPySpace_char_cases hB with rfl | rfl | rfl | rfl | rfl | rfl <;>
      revert h1 <;> decide

theorem ne_quote_of_lower_letter {c : Char}
    (h1 : 'a' ≤ charLowerAscii c) (h2 : charLowerAscii c ≤ 'z') : c ≠ '"' := by
  rintro rfl
  revert h1
  decide

theorem isPySpace_false_of_isAliasChar {c : Char} (h : isAliasChar c = true) :
    isPySpace c = false := by
  cases hB : isPySpace c
  · rfl
  · exfalso
    rcases isPySpace_char_cases hB with rfl | rfl | rfl | rfl | rfl | rfl <;>
      exact absurd h (by decide)

theorem dropWhile_cons_of_neg {α} {p : α → Bool} {c : α} {cs : List α}
    (h : p c = false) : List.dropWhile p (c :: cs) = c :: cs := by
  simp [List.dropWhile_cons, h]

theorem takeWhile_cons_of_neg {α} {p : α → Bool} {c : α} {cs : List α}
    (h : p c = false) : List.takeWhile p (c :: cs) = [] := by
  simp [List.takeWhile_cons, h]

theorem takeWhile_append_of_all {α} {p : α → Bool} {l r : List α}
    (h : ∀ x ∈ l, p x = true) :
    (l ++ r).takeWhile p = l ++ r.takeWhile p := by
  induction l with
  | nil => simp
  | cons a t ih =>
      have ha : p a = true := h a (by simp)
      simp only [List.cons_append, List.takeWhile_cons, ha, if_true]
      rw [ih (fun x hx => h x (by simp [hx]))]

theorem dropWhile_append_of_all {α} {p : α → Bool} {l r : List α}
    (h : ∀ x ∈ l, p x = true) :
    (l ++ r).dropWhile p = r.dropWhile p := by
  induction l with
  | nil => simp
  | cons a t ih =>
      have ha : p a = true := h a (by simp)
      simp only [List.cons_append, List.dropWhile_cons, ha, if_true]
      exact ih (fun x hx => h x (by simp [hx]))

theorem pyStrip_eq_self {cs : Str}
    (h1 : ∀ c, cs.head? = some c → isPySpace c = false)
    (h2 : ∀ c, cs.getLast? = some c → isPySpace c = false) :
    pyStrip cs = cs := by
  cases cs with
  | nil => rfl
  | cons a l =>
      unfold pyStrip
      rw [dropWhile_cons_of_neg (h1 a rfl)]
      cases hr : (a :: l).reverse with
      | nil => exact absurd hr (by simp)
      | cons b r =>
          have hb : (a :: l).getLast? = some b := by
            rw [← List.head?_reverse, hr]; rfl
          rw [dropWhile_cons_of_neg (h2 b hb), ← hr, List.reverse_reverse]

theorem exists_cons_of_pyLower {w : Str} {l : Char} {ls : Str}
    (h : pyLower w = l :: ls) :
    ∃ c cs, w = c :: cs ∧ charLowerAscii c = l ∧ pyLower cs = ls := by
  cases w with
  | nil => exact absurd h (by simp [pyLower])
  | cons c cs =>
      simp only [pyLower, List.map_cons, List.cons.injEq] at h
      exact ⟨c, cs, rfl, h.1, h.2⟩

theorem eatLiteralCI_of_pyLower {lit : Str} :
    ∀ {pre : Str}, pyLower lit = lit → pyLower pre = lit →
      ∀ rest, eatLiteralCI lit (pre ++ rest) = some rest := by
  induction lit with
  | nil =>
      intro pre _ hp rest
      have : pre = [] := by simpa [pyLower] using hp
      subst this
      rfl
  | cons l ls ih =>
      intro pre hl hp rest
      obtain ⟨c, cs, rfl, hc, hcs⟩ := exists_cons_of_pyLower hp
      simp only [pyLower, List.map_cons, List.cons.injEq] at hl
      show eatLiteralCI (l :: ls) (c :: (cs ++ rest)) = some rest
      rw [eatLiteralCI]
      rw [if_pos (by rw [hc, hl.1])]
      exact ih hl.2 hcs rest

theorem eatWs1_cons {c : Char} {rest : Str} (h : isPySpace c = true) :
    eatWs1 (c :: rest) = some (rest.dropWhile isPySpace) := by
  simp [eatWs1, h]

theorem eatChar_cons {q c : Char} {rest : Str} :
    eatChar q (c :: rest) = if c = q then some rest else none := rfl

theorem getLast?_append_right {α} {l l' : List α} {z : α}
    (h : l'.getLast? = some z) : (l ++ l').getLast? = some z := by
  rw [List.getLast?_append, h]
  rfl

theorem getLast?_cons_right {α} {a : α} {l : List α} {z : α}
    (h : l.getLast? = some z) : (a :: l).getLast? = some z := by
  have he : a :: l = [a] ++ l := rfl
  rw [he]
  exact getLast?_append_right h

/-! ## Claims -/

/-- C1: every input of the form `schedule to <alias> at <when>` — the
keywords in any letter case (the match is case-insensitive), the alias a
nonempty word-and-hyphen token, `when` a nonempty phrase not starting or
ending in whitespace — parses to the `ScheduleConfig(alias, when)` command
rather than a parse error; the quoted-text `Schedule` form, tried first in
the first-match-wins chain, does not fire because no quote follows the
`schedule` keyword. -/
theorem parse_schedule_config_ok (w1 w2 w3 aliasN whenT : Str)
    (hw1 : pyLower w1 = "schedule".toList)
    (hw2 : pyLower w2 = "to".toList)
    (hw3 : pyLower w3 = "at".toList)
    (ha : aliasN ≠ [])
    (haC : ∀ c ∈ aliasN, isAliasChar c = true)
    (hwne : whenT ≠ [])
    (hwhead : ∀ c, whenT.head? = some c → isPySpace c = false)
    (hwlast : ∀ c, whenT.getLast? = some c → isPySpace c = false) :
    parse_owner_command
        (w1 ++ (' ' :: (w2 ++ (' ' :: (aliasN ++ (' ' :: (w3 ++ (' ' :: whenT))))))))
      = .ok (.scheduleConfig aliasN whenT) := by
  obtain ⟨c1, cs1, rfl, hc1, hcs1⟩ := exists_cons_of_pyLower hw1
  obtain ⟨c2, cs2, rfl, hc2, hcs2⟩ := exists_cons_of_pyLower hw2
  obtain ⟨c3, cs3, rfl, hc3, hcs3⟩ := exists_cons_of_pyLower hw3
  cases whenT with
  | nil => exact absurd rfl hwne
  | cons d dt =>
  have hc1s : isPySpace c1 = false :=
    not_isPySpace_of_lower_letter (by rw [hc1]; decide) (by rw [hc1]; decide)
  have hc2s : isPySpace c2 = false :=
    not_isPySpace_of_lower_letter (by rw [hc2]; decide) (by rw [hc2]; decide)
  have hc3s : isPySpace c3 = false :=
    not_isPySpace_of_lower_letter (by rw [hc3]) (by rw [hc3]; decide)
  have hc2q : c2 ≠ '"' :=
    ne_quote_of_lower_letter (by rw [hc2]; decide) (by rw [hc2]; decide)
  have hd : isPySpace d = false := hwhead d rfl
  rcases hz : (d :: dt).getLast? with _ | z
  · simp at hz
  have hzs : isPySpace z = false := hwlast z hz
  have hlastIN :
      ((c1 :: cs1) ++ (' ' :: ((c2 :: cs2) ++ (' ' :: (aliasN ++ (' ' :: ((c3 :: cs3) ++ (' ' :: (d :: dt))))))))).getLast?
        = some z :=
    getLast?_append_right (getLast?_cons_right (getLast?_append_right
      (getLast?_cons_right (getLast?_append_right (getLast?_cons_right
        (getLast?_append_right hz))))))
  have hstrip : pyStrip
      ((c1 :: cs1) ++ (' ' :: ((c2 :: cs2) ++ (' ' :: (aliasN ++ (' ' :: ((c3 :: cs3) ++ (' ' :: (d :: dt)))))))))
      = (c1 :: cs1) ++ (' ' :: ((c2 :: cs2) ++ (' ' :: (aliasN ++ (' ' :: ((c3 :: cs3) ++ (' ' :: (d :: dt)))))))) := by
    apply pyStrip_eq_self
    · intro c hc
      have hcc : c1 = c := by simpa using hc
      rw [← hcc]
      exact hc1s
    · intro c hc
      rw [hlastIN] at hc
      have hcc : z = c := by simpa using hc
      rw [← hcc]
      exact hzs
  cases aliasN with
  | nil => exact absurd rfl ha
  | cons a al =>
  have haA : isAliasChar a = true := haC a (List.mem_cons_self a al)
  have haS : isPySpace a = false := isPySpace_false_of_isAliasChar haA
  have e2 : ((c2 :: cs2) ++ (' ' :: ((a :: al) ++ (' ' :: ((c3 :: cs3) ++ (' ' :: (d :: dt))))))).dropWhile isPySpace
      = (c2 :: cs2) ++ (' ' :: ((a :: al) ++ (' ' :: ((c3 :: cs3) ++ (' ' :: (d :: dt)))))) := by
    rw [List.cons_append]
    exact dropWhile_cons_of_neg hc2s
  have hsched :
      matchSchedule ((c1 :: cs1) ++ (' ' :: ((c2 :: cs2) ++ (' ' :: ((a :: al) ++ (' ' :: ((c3 :: cs3) ++ (' ' :: (d :: dt)))))))))
        = none := by
    rw [matchSchedule]
    rw [eatLiteralCI_of_pyLower (by decide) hw1]
    simp only [Option.some_bind]
    rw [eatWs1_cons (by decide), e2]
    simp only [Option.some_bind]
    rw [show eatChar '"' ((c2 :: cs2) ++ (' ' :: ((a :: al) ++ (' ' :: ((c3 :: cs3) ++ (' ' :: (d :: dt))))))) = none from by
      rw [List.cons_append, eatChar_cons, if_neg hc2q]]
    rfl
  have hconf :
      matchScheduleConfig ((c1 :: cs1) ++ (' ' :: ((c2 :: cs2) ++ (' ' :: ((a :: al) ++ (' ' :: ((c3 :: cs3) ++ (' ' :: (d :: dt)))))))))
        = some (a :: al, d :: dt) := by
    rw [matchScheduleConfig]
    rw [eatLiteralCI_of_pyLower (by decide) hw1]
    simp only [Option.some_bind]
    rw [eatWs1_cons (by decide), e2]
    simp only [Option.some_bind]
    rw [eatLiteralCI_of_pyLower (by decide) hw2]
    simp only [Option.some_bind]
    rw [eatWs1_cons (by decide)]
    rw [show ((a :: al) ++ (' ' :: ((c3 :: cs3) ++ (' ' :: (d :: dt))))).dropWhile isPySpace
        = (a :: al) ++ (' ' :: ((c3 :: cs3) ++ (' ' :: (d :: dt)))) from by
      rw [List.cons_append]
      exact dropWhile_cons_of_neg haS]
    simp only [Option.some_bind]
    rw [aliasAtWhenTail]
    rw [show eatAliasRun ((a :: al) ++ (' ' :: ((c3 :: cs3) ++ (' ' :: (d :: dt)))))
        = some (a :: al, ' ' :: ((c3 :: cs3) ++ (' ' :: (d :: dt)))) from by
      simp only [eatAliasRun]
      rw [takeWhile_append_of_all haC,
        takeWhile_cons_of_neg (by decide : isAliasChar ' ' = false),
        dropWhile_append_of_all haC,
        dropWhile_cons_of_neg (by decide : isAliasChar ' ' = false),
        List.append_nil]
      rfl]
    simp only [Option.some_bind]
    rw [eatWs1_cons (by decide)]
    rw [show ((c3 :: cs3) ++ (' ' :: (d :: dt))).dropWhile isPySpace
        = (c3 :: cs3) ++ (' ' :: (d :: dt)) from by
      rw [List.cons_append]
      exact dropWhile_cons_of_neg hc3s]
    simp only [Option.some_bind]
    rw [eatLiteralCI_of_pyLower (by decide) hw3]
    simp only [Option.some_bind]
    rw [show wsThenRest (' ' :: (d :: dt)) = some (d :: dt) from by
      simp only [wsThenRest]
      rw [List.takeWhile_cons, if_pos (by decide : isPySpace ' ' = true),
        takeWhile_cons_of_neg hd]
      rw [List.dropWhile_cons, if_pos (by decide : isPySpace ' ' = true),
        dropWhile_cons_of_neg hd]
      rfl]
    rfl
  simp only [parse_owner_command, hstrip, hsched, hconf]

/-- Witness for C1 at a mixed-case concrete command. -/
theorem parse_schedule_config_ok_witness :
    pyLower "ScHeDuLe".toList = "schedule".toList ∧
      parse_owner_command "ScHeDuLe To team-1 AT tomorrow 9am".toList
        = .ok (.scheduleConfig "team-1".toList "tomorrow 9am".toList) :=
  ⟨by decide,
   parse_schedule_config_ok "ScHeDuLe".toList "To".toList "AT".toList
     "team-1".toList "tomorrow 9am".toList
     (by decide) (by decide) (by decide) (by decide) (by decide)
     (by decide) (by decide) (by decide)⟩

/-- C9: an incoming direct message whose sender differs from the configured
owner id is dropped by `process_owner_message` before any command parse,
any database read or write, and any reply: the state is returned unchanged
and no message is sent, exactly as if the message had never arrived. -/
theorem non_owner_message_noop (s : DBState) (now : Int) (owner_wa_id : Str)
    (parseWhen : Str → Option Int) (message : IncomingMessage)
    (h : message.sender_wa_id ≠ owner_wa_id) :
    process_owner_message s now owner_wa_id parseWhen message = (s, []) := by
  simp [process_owner_message, h]

/-- Witness for C9 at a concrete non-owner sender. -/
theorem non_owner_message_noop_witness :
    ("intruder".toList : Str) ≠ "owner".toList ∧
      process_owner_message sampleState 0 "owner".toList (fun _ => none)
        { sender_wa_id := "intruder".toList, text := some "list".toList,
          button_payload := none } = (sampleState, []) :=
  ⟨by decide,
   non_owner_message_noop sampleState 0 "owner".toList (fun _ => none)
     { sender_wa_id := "intruder".toList, text := some "list".toList,
       button_payload := none } (by decide)⟩

/-- C8: in the two-phase flow, blank or whitespace-only content for an
Armed pending schedule is answered with the EmptyContent reply while the
whole store — in particular the Armed `PendingSchedule` row, which is not
cleared, and the jobs table, to which nothing is added — is left exactly
unchanged, so the owner can retry. -/
theorem empty_content_retains_armed (s : DBState) (now : Int)
    (owner_wa_id : Str) (pending_schedule : PendingSchedule) (content_text : Str)
    (h : pyStrip content_text = []) :
    _complete_pending_schedule s now owner_wa_id pending_schedule content_text
      = (s, [.emptyContent]) := by
  simp [_complete_pending_schedule, h]

/-- Witness for C8 at whitespace-only content against an Armed slot. -/
theorem empty_content_retains_armed_witness :
    pyStrip "  ".toList = [] ∧
      _complete_pending_schedule sampleState 100 "owner".toList
        { owner_id := "owner".toList, group_alias := "team".toList,
          run_at := 500, created_at := 0 } "  ".toList
        = (sampleState, [.emptyContent]) :=
  ⟨by decide,
   empty_content_retains_armed sampleState 100 "owner".toList
     { owner_id := "owner".toList, group_alias := "team".toList,
       run_at := 500, created_at := 0 } "  ".toList (by decide)⟩

/-- C2: for a schedule request against a registered alias with
`run_at ≤ now`: if `now - run_at` is at most 5 minutes (300 s) the call
succeeds — provided no job already owns the adjusted correlation key — and
the resulting job's `run_at` is exactly `now + 10` seconds; if `now -
run_at` exceeds 5 minutes the call raises PastSchedule, so no job is
created (the error return carries no state). -/
theorem schedule_job_grace_window (s : DBState) (now : Int)
    (group_alias text : Str) (run_at : Int) (created_by : Str) (g : Group)
    (hg : findGroupByAlias s.groups (pyLower group_alias) = some g)
    (hpast : run_at ≤ now) :
    (now - run_at ≤ 300 →
      (∀ j ∈ s.jobs,
        j.correlation_key ≠ some (_generate_correlation_key g.group_id text (now + 10))) →
      ∃ j s', schedule_job s now group_alias text run_at created_by none = .ok (j, s')
        ∧ j.run_at = now + 10)
    ∧ (300 < now - run_at →
        schedule_job s now group_alias text run_at created_by none = .error .pastSchedule) := by
  constructor
  · intro hwin hfresh
    have hfind : findJobByKey s.jobs
        (_generate_correlation_key g.group_id text (now + 10)) = none := by
      rw [findJobByKey, List.find?_eq_none]
      intro j hj
      simpa using hfresh j hj
    refine ⟨newJob s now g text (now + 10) created_by
        (_generate_correlation_key g.group_id text (now + 10)),
      insertJob s (newJob s now g text (now + 10) created_by
        (_generate_correlation_key g.group_id text (now + 10))), ?_, rfl⟩
    simp only [schedule_job, hg, if_pos hpast, if_pos hwin, scheduleAt,
      Option.getD_none, hfind]
  · intro hgt
    simp only [schedule_job, hg, if_pos hpast,
      if_neg (show ¬ now - run_at ≤ 300 by omega)]

/-- Witness for C2 (both branches) at concrete instants. -/
theorem schedule_job_grace_window_witness :
    ((1000 : Int) - 900 ≤ 300 ∧
      ∃ j s', schedule_job sampleState 1000 "team".toList "hi".toList 900
          "owner".toList none = .ok (j, s') ∧ j.run_at = 1010)
    ∧ ((300 : Int) < 1000 - 500 ∧
        schedule_job sampleState 1000 "team".toList "hi".toList 500
          "owner".toList none = .error .pastSchedule) :=
  ⟨⟨by decide,
    (schedule_job_grace_window sampleState 1000 "team".toList "hi".toList 900
      "owner".toList sampleGroup (by decide) (by decide)).1 (by decide)
      (by intro j hj; exact absurd hj (List.not_mem_nil j))⟩,
   ⟨by decide,
    (schedule_job_grace_window sampleState 1000 "team".toList "hi".toList 500
      "owner".toList sampleGroup (by decide) (by decide)).2 (by decide)⟩⟩

/-- C3: scheduling twice with identical arguments (same registered alias,
text and future `run_at`, against a store with no job holding the
correlation key yet) returns the very same job both times, and exactly one
job row with that correlation key exists afterwards: the key is the
deterministic function of `(destination_id, text, run_at_iso)` and the
second call returns the existing job unchanged. -/
theorem schedule_job_idempotent (s : DBState) (now : Int)
    (group_alias text : Str) (run_at : Int) (created_by : Str) (g : Group)
    (hg : findGroupByAlias s.groups (pyLower group_alias) = some g)
    (hfut : now < run_at)
    (hfresh : ∀ j ∈ s.jobs,
      j.correlation_key ≠ some (_generate_correlation_key g.group_id text run_at)) :
    ∃ j s', schedule_job s now group_alias text run_at created_by none = .ok (j, s')
      ∧ schedule_job s' now group_alias text run_at created_by none = .ok (j, s')
      ∧ s'.jobs.filter
          (fun x => x.correlation_key
            == some (_generate_correlation_key g.group_id text run_at)) = [j] := by
  have hfind : findJobByKey s.jobs
      (_generate_correlation_key g.group_id text run_at) = none := by
    rw [findJobByKey, List.find?_eq_none]
    intro j hj
    simpa using hfresh j hj
  have hnotle : ¬ run_at ≤ now := by omega
  refine ⟨newJob s now g text run_at created_by
      (_generate_correlation_key g.group_id text run_at),
    insertJob s (newJob s now g text run_at created_by
      (_generate_correlation_key g.group_id text run_at)), ?_, ?_, ?_⟩
  · simp only [schedule_job, hg, if_neg hnotle, scheduleAt, Option.getD_none, hfind]
  · have hgroups : (insertJob s (newJob s now g text run_at created_by
        (_generate_correlation_key g.group_id text run_at))).groups = s.groups := rfl
    simp only [schedule_job, hgroups, hg, if_neg hnotle, scheduleAt, Option.getD_none]
    rw [show findJobByKey (insertJob s (newJob s now g text run_at created_by
        (_generate_correlation_key g.group_id text run_at))).jobs
        (_generate_correlation_key g.group_id text run_at)
      = some (newJob s now g text run_at created_by
        (_generate_correlation_key g.group_id text run_at)) from ?_]
    rw [findJobByKey, insertJob]
    rw [List.find?_append]
    rw [findJobByKey] at hfind
    rw [hfind]
    simp [newJob]
  · show (s.jobs ++ [newJob s now g text run_at created_by
        (_generate_correlation_key g.group_id text run_at)]).filter _ = _
    rw [List.filter_append]
    rw [List.filter_eq_nil_iff.mpr (fun j hj => by simpa using hfresh j hj)]
    simp [newJob]

/-- Witness for C3 against the one-group store. -/
theorem schedule_job_idempotent_witness :
    (1000 : Int) < 2000 ∧
      ∃ j s', schedule_job sampleState 1000 "team".toList "hi".toList 2000
          "owner".toList none = .ok (j, s')
        ∧ schedule_job s' 1000 "team".toList "hi".toList 2000
            "owner".toList none = .ok (j, s')
        ∧ s'.jobs.filter
            (fun x => x.correlation_key
              == some (_generate_correlation_key sampleGroup.group_id "hi".toList 2000)) = [j] :=
  ⟨by decide,
   schedule_job_idempotent sampleState 1000 "team".toList "hi".toList 2000
     "owner".toList sampleGroup (by decide) (by decide)
     (fun j hj => absurd hj (List.not_mem_nil j))⟩

/-- Updating jobs in place through the primary key preserves lookups: the
`session.get`-style search on the updated table finds the updated row. -/
theorem findJobById_map_upd (l : List Job) (i : Nat) (upd : Job → Job)
    (hid : ∀ x, (upd x).id = x.id) :
    findJobById (l.map (fun x => if x.id = i then upd x else x)) i
      = (findJobById l i).map (fun x => if x.id = i then upd x else x) := by
  rw [findJobById, findJobById, List.find?_map]
  have hp : ((fun j => j.id == i) ∘ fun x => if x.id = i then upd x else x)
      = (fun j => j.id == i) := by
    funext x
    by_cases hx : x.id = i
    · simp [Function.comp, hx, hid]
    · simp [Function.comp, hx]
  rw [hp]

/-- Counterexample to C4 as stated: `cancel_job` on a job in the terminal
Failed status does mutate it — the status moves Failed → Cancelled (and
`last_error` is cleared), because `cancel_job` only skips Cancelled and
Sent jobs, so a Job in a terminal state can change status again. -/
theorem cancel_failed_job_mutates_cex :
    (findJobById failedState.jobs 1).map Job.status = some .failed ∧
    (cancel_job failedState 1).1 = true ∧
    (findJobById (cancel_job failedState 1).2.jobs 1).map Job.status
      = some .cancelled := by
  refine ⟨rfl, rfl, rfl⟩

/-- C4 (amended): `cancel_job` leaves Sent and Cancelled jobs unchanged
(and the executor performs no state change on them), and moves a Scheduled
— but also a Failed — job to Cancelled with `last_error` cleared; and
`mark_job_sent` / `mark_job_failed` themselves set the status
unconditionally from any prior status.  So the transition set is
Scheduled → {Sent, Cancelled, Failed} plus Failed → Cancelled (cancel) and,
through the unconditional marks the executor applies to a Failed job that
slips past its Cancelled/Sent guards, Failed → Sent; only Sent and
Cancelled are immutable. -/
theorem job_status_transitions (s : DBState) (id : Nat) (j : Job)
    (h : findJobById s.jobs id = some j) (resp : SendResponse)
    (now win : Int) (err : Str) :
    ((j.status = .sent ∨ j.status = .cancelled) →
       cancel_job s id = (true, s)
         ∧ (send_scheduled_message s id resp now win).1 = s)
    ∧ ((j.status = .scheduled ∨ j.status = .failed) →
        findJobById (cancel_job s id).2.jobs id
          = some { j with status := .cancelled, last_error := none })
    ∧ findJobById (mark_job_sent s id).jobs id
        = some { j with status := .sent, last_error := none }
    ∧ findJobById (mark_job_failed s id err).jobs id
        = some { j with status := .failed, last_error := some err } := by
  have hji : j.id = id := by simpa using List.find?_some h
  refine ⟨?_, ?_, ?_, ?_⟩
  · intro hst
    constructor
    · have hcond : j.status = .cancelled ∨ j.status = .sent := hst.symm
      simp [cancel_job, h, hcond]
    · rcases hst with hs | hs
      · simp [send_scheduled_message, h, hs]
      · simp [send_scheduled_message, h, hs]
  · intro hst
    have hcond : ¬ (j.status = .cancelled ∨ j.status = .sent) := by
      rcases hst with hs | hs <;> simp [hs]
    simp only [cancel_job, h, if_neg hcond]
    rw [findJobById_map_upd s.jobs id
        (fun x => { x with status := .cancelled, last_error := none }) (fun x => rfl), h]
    simp [hji]
  · show findJobById (s.jobs.map (fun x =>
        if x.id = id then { x with status := .sent, last_error := none } else x)) id = _
    rw [findJobById_map_upd s.jobs id
        (fun x => { x with status := .sent, last_error := none }) (fun x => rfl), h]
    simp [hji]
  · show findJobById (s.jobs.map (fun x =>
        if x.id = id then { x with status := .failed, last_error := some err } else x)) id = _
    rw [findJobById_map_upd s.jobs id
        (fun x => { x with status := .failed, last_error := some err }) (fun x => rfl), h]
    simp [hji]

/-- Witness for the amended C4 at the concrete Failed job. -/
theorem job_status_transitions_witness :
    ((failedJob.status = .sent ∨ failedJob.status = .cancelled) →
       cancel_job failedState 1 = (true, failedState)
         ∧ (send_scheduled_message failedState 1 .httpError 0 12).1 = failedState)
    ∧ ((failedJob.status = .scheduled ∨ failedJob.status = .failed) →
        findJobById (cancel_job failedState 1).2.jobs 1
          = some { failedJob with status := .cancelled, last_error := none })
    ∧ findJobById (mark_job_sent failedState 1).jobs 1
        = some { failedJob with status := .sent, last_error := none }
    ∧ findJobById (mark_job_failed failedState 1 "e".toList).jobs 1
        = some { failedJob with status := .failed, last_error := some "e".toList } :=
  job_status_transitions failedState 1 failedJob rfl .httpError 0 12 "e".toList

/-- Counterexample to C5 as stated: with a rival insert bearing the same
correlation key landing between the existence check and the flush, the
call surfaces the storage conflict as a hard error instead of returning
the already-persisted job — `schedule_job` has no handler for the
`IntegrityError` raised by the unique constraint. -/
theorem race_conflict_cex :
    schedule_job_duringRace sampleState [rivalJob] 1000 "team".toList
      "hi".toList 2000 "owner".toList none = .error .storageConflict := by
  rfl

/-- C5 (amended): when a rival request commits a job with the same
correlation key between this transaction's existence check and its insert,
the unique constraint rejects the duplicate and the resulting conflict
error propagates out of `schedule_job` uncaught; no duplicate Job is
created, but the existing Job is not re-fetched and no Job is returned. -/
theorem race_conflict_propagates (s : DBState) (concurrent : List Job)
    (now : Int) (group_alias text : Str) (run_at : Int) (created_by : Str)
    (g : Group) (jr : Job)
    (hg : findGroupByAlias s.groups (pyLower group_alias) = some g)
    (hfut : now < run_at)
    (hmiss : findJobByKey s.jobs
      (_generate_correlation_key g.group_id text run_at) = none)
    (hconf : findJobByKey concurrent
      (_generate_correlation_key g.group_id text run_at) = some jr) :
    schedule_job_duringRace s concurrent now group_alias text run_at created_by none
      = .error .storageConflict := by
  have hnotle : ¬ run_at ≤ now := by omega
  simp only [schedule_job_duringRace, hg, if_neg hnotle, scheduleAtDuringRace,
    Option.getD_none, hmiss, hconf]

/-- C6: the job executor is idempotent under at-least-once redelivery of
the fire event: (i) a fire event for a Cancelled or Sent job performs no
send and no state change; (ii) a fire event for a job that passes those
guards but already has a MessageCorrelation row sends nothing and only
marks the job Sent; (iii) after a successful delivery (send succeeded and
returned a message id), any redelivery of the fire event performs no send
and no state change — so a job's message is never sent twice. -/
theorem executor_redelivery_safe (s : DBState) (id : Nat) (j : Job)
    (resp : SendResponse) (now win : Int)
    (h : findJobById s.jobs id = some j) :
    ((j.status = .cancelled ∨ j.status = .sent) →
       (send_scheduled_message s id resp now win).1 = s
         ∧ (send_scheduled_message s id resp now win).2.1 = [])
    ∧ (j.status ≠ .cancelled → j.status ≠ .sent →
        ∀ c, s.correlations.find? (fun x => x.job_id == j.id) = some c →
          send_scheduled_message s id resp now win
            = (mark_job_sent s j.id, [], .alreadyCorrelated))
    ∧ (j.status ≠ .cancelled → j.status ≠ .sent →
        s.correlations.find? (fun x => x.job_id == j.id) = none →
        ∀ mid rest, resp = .ok (mid :: rest) →
          ∀ resp2 now2 win2,
            send_scheduled_message
                (send_scheduled_message s id resp now win).1 id resp2 now2 win2
              = ((send_scheduled_message s id resp now win).1, [], .noopAlreadySent)) := by
  have hji : j.id = id := by simpa using List.find?_some h
  refine ⟨?_, ?_, ?_⟩
  · rintro (hs | hs) <;> constructor <;> simp [send_scheduled_message, h, hs]
  · intro h1 h2 c hc
    simp only [send_scheduled_message, h, if_neg h1, if_neg h2, hc]
  · intro h1 h2 hnone mid rest hresp resp2 now2 win2
    subst hresp
    have hfirst : (send_scheduled_message s id (.ok (mid :: rest)) now win).1
        = mark_job_sent ((record_correlation s now win j.id j.group_id mid none).2) j.id := by
      simp only [send_scheduled_message, h, if_neg h1, if_neg h2, hnone]
    rw [hfirst]
    have hfind2 : findJobById
        (mark_job_sent ((record_correlation s now win j.id j.group_id mid none).2) j.id).jobs id
        = some { j with status := .sent, last_error := none } := by
      show findJobById
        (((record_correlation s now win j.id j.group_id mid none).2).jobs.map (fun x =>
          if x.id = j.id then { x with status := .sent, last_error := none } else x)) id = _
      have hjobs : ((record_correlation s now win j.id j.group_id mid none).2).jobs
          = s.jobs := rfl
      rw [hjobs, hji]
      rw [findJobById_map_upd s.jobs id
        (fun x => { x with status := .sent, last_error := none }) (fun x => rfl), h]
      simp [hji]
    simp [send_scheduled_message, hfind2]

/-- Witness for C6 at the concrete Scheduled job and a successful send. -/
theorem executor_redelivery_safe_witness :
    ((scheduledJob.status = .cancelled ∨ scheduledJob.status = .sent) →
       (send_scheduled_message scheduledState 3 (.ok ["MSG".toList]) 0 12).1 = scheduledState
         ∧ (send_scheduled_message scheduledState 3 (.ok ["MSG".toList]) 0 12).2.1 = [])
    ∧ (scheduledJob.status ≠ .cancelled → scheduledJob.status ≠ .sent →
        ∀ c, scheduledState.correlations.find? (fun x => x.job_id == scheduledJob.id) = some c →
          send_scheduled_message scheduledState 3 (.ok ["MSG".toList]) 0 12
            = (mark_job_sent scheduledState scheduledJob.id, [], .alreadyCorrelated))
    ∧ (scheduledJob.status ≠ .cancelled → scheduledJob.status ≠ .sent →
        scheduledState.correlations.find? (fun x => x.job_id == scheduledJob.id) = none →
        ∀ mid rest, (SendResponse.ok ["MSG".toList]) = .ok (mid :: rest) →
          ∀ resp2 now2 win2,
            send_scheduled_message
                (send_scheduled_message scheduledState 3 (.ok ["MSG".toList]) 0 12).1 3
                resp2 now2 win2
              = ((send_scheduled_message scheduledState 3 (.ok ["MSG".toList]) 0 12).1,
                 [], .noopAlreadySent)) :=
  executor_redelivery_safe scheduledState 3 scheduledJob (.ok ["MSG".toList]) 0 12 rfl

theorem eq_nil_of_mostRecent_none {l : List MessageCorrelation}
    (h : mostRecent l = none) : l = [] := by
  cases l with
  | nil => rfl
  | cons a rest =>
      exfalso
      rw [mostRecent] at h
      rcases hm : mostRecent rest with _ | b
      · simp [hm] at h
      · simp only [hm] at h
        by_cases hb : b.created_at > a.created_at <;> simp [hb] at h

theorem mostRecent_mem {l : List MessageCorrelation} {c : MessageCorrelation}
    (h : mostRecent l = some c) : c ∈ l := by
  induction l generalizing c with
  | nil => simp [mostRecent] at h
  | cons a rest ih =>
      rw [mostRecent] at h
      rcases hm : mostRecent rest with _ | b
      · simp only [hm] at h
        obtain rfl : a = c := by simpa using h
        exact List.mem_cons_self a rest
      · simp only [hm] at h
        by_cases hb : b.created_at > a.created_at
        · rw [if_pos hb] at h
          obtain rfl : b = c := by simpa using h
          exact List.mem_cons_of_mem a (ih hm)
        · rw [if_neg hb] at h
          obtain rfl : a = c := by simpa using h
          exact List.mem_cons_self a rest

theorem mostRecent_max {l : List MessageCorrelation} {c : MessageCorrelation}
    (h : mostRecent l = some c) : ∀ x ∈ l, x.created_at ≤ c.created_at := by
  induction l generalizing c with
  | nil => simp [mostRecent] at h
  | cons a rest ih =>
      rw [mostRecent] at h
      intro x hx
      rcases hm : mostRecent rest with _ | b
      · simp only [hm] at h
        obtain rfl : a = c := by simpa using h
        obtain rfl : rest = [] := eq_nil_of_mostRecent_none hm
        rcases List.mem_cons.mp hx with rfl | hx'
        · exact le_refl _
        · exact absurd hx' (List.not_mem_nil x)
      · simp only [hm] at h
        rcases List.mem_cons.mp hx with rfl | hx'
        · by_cases hb : b.created_at > x.created_at
          · rw [if_pos hb] at h
            obtain rfl : b = c := by simpa using h
            omega
          · rw [if_neg hb] at h
            obtain rfl : x = c := by simpa using h
            exact le_refl _
        · have hxb := ih hm x hx'
          by_cases hb : b.created_at > a.created_at
          · rw [if_pos hb] at h
            obtain rfl : b = c := by simpa using h
            exact hxb
          · rw [if_neg hb] at h
            obtain rfl : a = c := by simpa using h
            omega

/-- C7: `find_correlation_for_context` returns the correlation whose
`bot_message_id` equals the given context id when one exists with its
window strictly in the future; otherwise — context absent, unmatched or
expired, i.e. the context lookup yields nothing — its result is the
most-recently-created correlation of the destination whose window is
strictly in the future, and it returns none exactly when no unexpired
correlation for the destination exists. -/
theorem find_correlation_resolution (s : DBState) (now : Int)
    (group_id : Str) (ctx : Option Str) :
    (∀ cid c, ctx = some cid →
        s.correlations.find? (fun x => x.bot_message_id == cid) = some c →
        now < c.window_expires_at →
        find_correlation_for_context s now group_id ctx = some c)
    ∧ (correlationByContext s now ctx = none →
        (∀ c, find_correlation_for_context s now group_id ctx = some c →
            c.group_id = group_id ∧ now < c.window_expires_at
              ∧ ∀ c' ∈ s.correlations, c'.group_id = group_id →
                  now < c'.window_expires_at → c'.created_at ≤ c.created_at)
        ∧ (find_correlation_for_context s now group_id ctx = none →
            ∀ c' ∈ s.correlations, c'.group_id = group_id →
              c'.window_expires_at ≤ now)) := by
  constructor
  · intro cid c hctx hfind hwin
    subst hctx
    have hby : correlationByContext s now (some cid) = some c := by
      simp [correlationByContext, hfind, window_in_future, hwin]
    simp [find_correlation_for_context, hby]
  · intro hnone
    constructor
    · intro c hc
      simp only [find_correlation_for_context, hnone] at hc
      rcases hm : mostRecent (s.correlations.filter
          (fun x => x.group_id == group_id && decide (now < x.window_expires_at))) with _ | b
      · simp [hm] at hc
      · simp only [hm] at hc
        by_cases hw : window_in_future b.window_expires_at now
        · rw [if_pos hw] at hc
          obtain rfl : b = c := by simpa using hc
          have hmem := mostRecent_mem hm
          have hpred := (List.mem_filter.mp hmem).2
          simp only [Bool.and_eq_true, beq_iff_eq, decide_eq_true_eq] at hpred
          refine ⟨hpred.1, hpred.2, ?_⟩
          intro c' hc' hg hw'
          exact mostRecent_max hm c'
            (List.mem_filter.mpr ⟨hc', by simp [hg, hw']⟩)
        · rw [if_neg hw] at hc
          simp at hc
    · intro hres c' hc' hg
      by_contra hgt
      push_neg at hgt
      have hmem : c' ∈ s.correlations.filter
          (fun x => x.group_id == group_id && decide (now < x.window_expires_at)) :=
        List.mem_filter.mpr ⟨hc', by simp [hg, hgt]⟩
      simp only [find_correlation_for_context, hnone] at hres
      rcases hm : mostRecent (s.correlations.filter
          (fun x => x.group_id == group_id && decide (now < x.window_expires_at))) with _ | b
      · rw [eq_nil_of_mostRecent_none hm] at hmem
        exact absurd hmem (List.not_mem_nil c')
      · simp only [hm] at hres
        by_cases hw : window_in_future b.window_expires_at now
        · rw [if_pos hw] at hres
          simp at hres
        · have hbpred := (List.mem_filter.mp (mostRecent_mem hm)).2
          simp only [Bool.and_eq_true, decide_eq_true_eq] at hbpred
          rw [window_in_future] at hw
          simp at hw
          omega

/-- Witness for C7: the context hit returns the matching correlation, and
(checked directly) an absent context falls back to the latest-created
unexpired correlation of the destination. -/
theorem find_correlation_resolution_witness :
    find_correlation_for_context corrState 500 "12345@g.us".toList
        (some "m1".toList) = some corrA
    ∧ find_correlation_for_context corrState 500 "12345@g.us".toList none
        = some corrB :=
  ⟨(find_correlation_resolution corrState 500 "12345@g.us".toList
      (some "m1".toList)).1 "m1".toList corrA rfl (by decide) (by decide),
   by decide⟩

/-- The persist tail of `schedule_job` either returns a pre-existing row or
a fresh one whose destination is the resolved group's id. -/
theorem scheduleAt_dest {s : DBState} {now : Int} {g : Group} {text : Str}
    {r : Int} {cb : Str} {j' : Job} {s' : DBState}
    (h : scheduleAt s now g text r cb none = .ok (j', s')) :
    j' ∈ s.jobs ∨ j'.group_id = g.group_id := by
  rw [scheduleAt] at h
  simp only [Option.getD_none] at h
  rcases hf : findJobByKey s.jobs
      (_generate_correlation_key g.group_id text r) with _ | jj
  · simp only [hf] at h
    have hj : newJob s now g text r cb
        (_generate_correlation_key g.group_id text r) = j' := by
      simp only [Except.ok.injEq, Prod.mk.injEq] at h
      exact h.1
    right
    rw [← hj]
    rfl
  · simp only [hf] at h
    have hj : jj = j' := by
      simp only [Except.ok.injEq, Prod.mk.injEq] at h
      exact h.1
    subst hj
    exact Or.inl (List.mem_of_find?_eq_some hf)

/-- C10: a Job snapshots its resolved destination at scheduling time —
`schedule_job` stores the resolved group's `group_id` on the row (unless it
returns a pre-existing row), re-registering an alias with a new destination
or unregistering it leaves every Job row untouched, and the executor sends
to the Job's stored `group_id` and text, so later Group Registry mutations
never affect an already-scheduled Job's delivery destination. -/
theorem job_destination_snapshot (s : DBState) (now : Int)
    (aliasName group_id : Str) (group_name : Option Str) (id : Nat) (j : Job)
    (resp : SendResponse) (win : Int) :
    (register_group s now aliasName group_id group_name).2.jobs = s.jobs
    ∧ (unregister_group s aliasName).2.jobs = s.jobs
    ∧ (findJobById s.jobs id = some j → j.status ≠ .cancelled → j.status ≠ .sent →
        s.correlations.find? (fun x => x.job_id == j.id) = none →
        (send_scheduled_message s id resp now win).2.1 = [(j.group_id, j.text)])
    ∧ (∀ galias text run_at created_by j' s',
        schedule_job s now galias text run_at created_by none = .ok (j', s') →
        j' ∈ s.jobs ∨ ∃ g, findGroupByAlias s.groups (pyLower galias) = some g
          ∧ j'.group_id = g.group_id) := by
  refine ⟨?_, ?_, ?_, ?_⟩
  · rcases hga : findGroupByAlias s.groups (pyLower aliasName) with _ | g <;>
      simp [register_group, hga]
  · rcases hga : findGroupByAlias s.groups (pyLower aliasName) with _ | g <;>
      simp [unregister_group, hga]
  · intro h h1 h2 hnone
    simp only [send_scheduled_message, h, if_neg h1, if_neg h2, hnone]
    cases resp with
    | httpError => rfl
    | ok ids => cases ids <;> rfl
  · intro galias text run_at created_by j' s' hsj
    rw [schedule_job] at hsj
    rcases hga : findGroupByAlias s.groups (pyLower galias) with _ | g
    · simp [hga] at hsj
    · simp only [hga] at hsj
      split_ifs at hsj with hle hwin
      · rcases scheduleAt_dest hsj with hmem | hdest
        · exact Or.inl hmem
        · exact Or.inr ⟨g, rfl, hdest⟩
      · rcases scheduleAt_dest hsj with hmem | hdest
        · exact Or.inl hmem
        · exact Or.inr ⟨g, rfl, hdest⟩

/-- Witness for C10 at the Scheduled job and a registry overwrite. -/
theorem job_destination_snapshot_witness :
    (register_group scheduledState 5 "team".toList "999@g.us".toList none).2.jobs
        = scheduledState.jobs
    ∧ (unregister_group scheduledState "team".toList).2.jobs = scheduledState.jobs
    ∧ (findJobById scheduledState.jobs 3 = some scheduledJob →
        scheduledJob.status ≠ .cancelled → scheduledJob.status ≠ .sent →
        scheduledState.correlations.find? (fun x => x.job_id == scheduledJob.id) = none →
        (send_scheduled_message scheduledState 3 .httpError 5 12).2.1
          = [(scheduledJob.group_id, scheduledJob.text)])
    ∧ (∀ galias text run_at created_by j' s',
        schedule_job scheduledState 5 galias text run_at created_by none = .ok (j', s') →
        j' ∈ scheduledState.jobs
          ∨ ∃ g, findGroupByAlias scheduledState.groups (pyLower galias) = some g
              ∧ j'.group_id = g.group_id) :=
  job_destination_snapshot scheduledState 5 "team".toList "999@g.us".toList
    none 3 scheduledJob .httpError 12

/-- Witness for the amended C5 at the concrete race. -/
theorem race_conflict_propagates_witness :
    (1000 : Int) < 2000 ∧
      schedule_job_duringRace sampleState [rivalJob] 1000 "team".toList
        "hi".toList 2000 "owner".toList none = .error .storageConflict :=
  ⟨by decide,
   race_conflict_propagates sampleState [rivalJob] 1000 "team".toList
     "hi".toList 2000 "owner".toList sampleGroup rivalJob
     (by decide) (by decide) rfl rfl⟩

